import Mathlib

/-!
Verification of the distributed-lock protocol in `src/distributed-lock.ts`
(class `DistributedLock` over a Valkey cluster client).

The store is modelled as a map from keys to entries; an entry is the stored
string value together with its optional expiry (time-to-live, in seconds, as
passed to the store at write time).  The cluster client's single-key
operations used by the code — conditional set with `onlyIfDoesNotExist`,
plain set, and the release Lua script (an atomic compare-and-delete) — are
each one atomic store operation, so every concurrent execution is equivalent
to running them in some serial order over the store.

Transport failures (a rejected promise from a client call) and failures of
the guarded operation are modelled by explicit failure parameters; the
JavaScript `try`/`finally` semantics — the finally block always runs, and an
exception raised by the finally block replaces the in-flight exception — is
embedded directly in the definitions of `withLock` and `safeSet`.
-/

namespace GlideLock

/-- A store entry: the stored string value and the expiry (in seconds)
attached at write time (`none` = no expiry). -/
abbrev Entry := String × Option Int

/-- The key-value store: one authoritative map, since acquire and release of
a lock key are routed to the same primary shard. -/
abbrev Store := String → Option Entry

/-- The empty store. -/
def emptyStore : Store := fun _ => none

/-- Unconditional write of `value` under `key` with the given expiry
(the client's plain `set`, with or without an `expiry` option). -/
def setKey (s : Store) (key value : String) (expiry : Option Int) : Store :=
  fun k => if k = key then some (value, expiry) else s k

/-- Deletion of `key` (the Lua `del` call). -/
def delKey (s : Store) (key : String) : Store :=
  fun k => if k = key then none else s k

/-- The client's `set` with `conditionalSet: "onlyIfDoesNotExist"` and an
`expiry` option: writes only when the key is absent, and reports whether the
write happened (the code coerces the `"OK" | null` reply to a boolean). -/
def setNX (s : Store) (key value : String) (expiry : Option Int) : Store × Bool :=
  match s key with
  | some _ => (s, false)
  | none => (setKey s key value expiry, true)

/-- Semantics of `releaseLockScript`, the Lua script
`if server.call("get", ARGV[1]) == ARGV[2] then return redis.call("del", ARGV[1]) else return 0 end`:
read the value at the lock key; if it equals the supplied client id, delete
the key and return 1 (the number of keys `del` removed), otherwise return 0
and leave the store unchanged.  Executed atomically at the shard owning the
key. -/
def releaseLockScript (s : Store) (lockKey clientId : String) : Store × Int :=
  match s lockKey with
  | some (v, _) => if v = clientId then (delKey s lockKey, 1) else (s, 0)
  | none => (s, 0)

/-- `DEFAULT_LOCK_TTL_SECONDS` from the source. -/
def DEFAULT_LOCK_TTL_SECONDS : Int := 10

/-- The `DistributedLock` instance state: the random per-instance client id
and the configured lock TTL in seconds. -/
structure DistributedLock where
  clientId : String
  lockTtlSeconds : Int
deriving DecidableEq

/-- The constructor: stores the client reference (implicit here), a freshly
generated client id, and the given TTL.  It performs no validation of
`lockTtlSeconds`; any value, including a non-positive one, is stored as is
and an instance is produced. -/
def DistributedLock.make (clientId : String) (lockTtlSeconds : Int) : DistributedLock :=
  { clientId := clientId, lockTtlSeconds := lockTtlSeconds }

/-- The lock key for a resource name: the template literal `lock:${key}`. -/
def lockKey (key : String) : String := "lock:" ++ key

/-- `acquireLock`: one conditional set of (lock key, client id) with expiry
`lockTtlSeconds`, `onlyIfDoesNotExist`; returns the coerced boolean. -/
def DistributedLock.acquireLock (L : DistributedLock) (s : Store) (key : String) :
    Store × Bool :=
  setNX s (lockKey key) L.clientId (some L.lockTtlSeconds)

/-- `releaseLock`: invoke `releaseLockScript` with the lock key and this
instance's client id, routed to the primary for the lock key; return
`result === 1`. -/
def DistributedLock.releaseLock (L : DistributedLock) (s : Store) (key : String) :
    Store × Bool :=
  let r := releaseLockScript s (lockKey key) L.clientId
  (r.1, r.2 == 1)

/-- The `releaseLock` call under a possible transport failure: when `fail`
is `some e` the client call rejects with `e` (the request has no store
effect); otherwise it behaves as `releaseLock`. -/
def DistributedLock.releaseLockF (L : DistributedLock) (fail : Option String)
    (s : Store) (key : String) : Store × Except String Bool :=
  match fail with
  | some e => (s, Except.error e)
  | none =>
    let r := L.releaseLock s key
    (r.1, Except.ok r.2)

/-- `withLock`: acquire; if denied return `null` (here `none`) at once.
Otherwise run `fn` and, in a `finally` block, `releaseLock`.  JavaScript
semantics of `try`/`finally`: the finally block runs on every exit path, and
if it raises, its failure replaces the in-flight result or exception.  `fn`
is a stateful, fallible operation whose value may itself be `null`
(TypeScript's `T | null` return collapses `fn`'s `null` and the denial
`null` into the same value, hence the `Option α` result). -/
def DistributedLock.withLock {α : Type} (L : DistributedLock) (key : String)
    (fn : Store → Store × Except String (Option α)) (releaseFail : Option String)
    (s : Store) : Store × Except String (Option α) :=
  let a := L.acquireLock s key
  if a.2 = false then
    (a.1, Except.ok none)
  else
    let b := fn a.1
    let r := L.releaseLockF releaseFail b.1 key
    (r.1, match r.2 with
          | Except.error e => Except.error e
          | Except.ok _ => b.2)

/-- The body of `safeSet` after a successful acquisition: the guarded data
write (failing with `writeFail` when that transport call rejects), then the
`finally` block invoking the release script, then `return success`.  A
failure raised by the finally block replaces the in-flight outcome. -/
def DistributedLock.safeSetGuarded (L : DistributedLock) (key value : String)
    (ttl : Option Int) (writeFail releaseFail : Option String) (s1 : Store) :
    Store × Except String Unit :=
  let w : Store × Except String Unit :=
    match writeFail with
    | some e => (s1, Except.error e)
    | none =>
      match ttl with
      | none => (setKey s1 key value none, Except.ok ())
      | some t => (setKey s1 key value (some t), Except.ok ())
  let r := L.releaseLockF releaseFail w.1 key
  (r.1, match r.2 with
        | Except.error e => Except.error e
        | Except.ok _ => w.2)

/-- `safeSet`: derive the lock key from the data key, attempt the same
conditional set as `acquireLock`; if denied return `false` at once with no
write attempted; otherwise run the guarded write with the `finally` release
and return `success` (true iff the write completed), with any pending
failure propagating. -/
def DistributedLock.safeSet (L : DistributedLock) (key value : String)
    (ttl : Option Int) (writeFail releaseFail : Option String) (s : Store) :
    Store × Except String Bool :=
  let a := setNX s (lockKey key) L.clientId (some L.lockTtlSeconds)
  if a.2 = false then
    (a.1, Except.ok false)
  else
    let g := L.safeSetGuarded key value ttl writeFail releaseFail a.1
    (g.1, match g.2 with
          | Except.error e => Except.error e
          | Except.ok _ => Except.ok true)

/-- Serialization of `n` concurrent `acquireLock` calls: each call is a
single atomic conditional set at the store, so any concurrent execution is
equivalent to applying the calls in some order; `acquireAll` applies them in
list order and collects each call's boolean result. -/
def acquireAll (Ls : List DistributedLock) (key : String) (s : Store) :
    Store × List Bool :=
  match Ls with
  | [] => (s, [])
  | L :: rest =>
    let a := L.acquireLock s key
    let r := acquireAll rest key a.1
    (r.1, a.2 :: r.2)

/- Concrete instances and stores used by witnesses. -/

/-- A sample manager instance. -/
def L0 : DistributedLock := DistributedLock.make "c0" 10

/-- A second manager instance with a distinct identity. -/
def L1 : DistributedLock := DistributedLock.make "c1" 10

/-- A store in which resource "r" is locked by `L0`. -/
def sHeldByL0 : Store := setKey emptyStore (lockKey "r") "c0" (some 10)

/-- A store in which resource "r" is locked by a third party. -/
def sHeldByOther : Store := setKey emptyStore (lockKey "r") "zz" (some 10)

/- Basic lemmas about the store operations. -/

theorem setKey_same (s : Store) (key value : String) (e : Option Int) :
    setKey s key value e key = some (value, e) := by
  simp [setKey]

theorem setKey_other (s : Store) (key value : String) (e : Option Int)
    (k : String) (h : k ≠ key) : setKey s key value e k = s k := by
  simp [setKey, h]

theorem lockKey_ne (k : String) : lockKey k ≠ k := by
  intro h
  have hlen := congrArg String.length h
  simp [lockKey, String.length_append] at hlen
  exact absurd hlen (by decide)

theorem acquireLock_free (L : DistributedLock) (s : Store) (key : String)
    (h : s (lockKey key) = none) :
    L.acquireLock s key =
      (setKey s (lockKey key) L.clientId (some L.lockTtlSeconds), true) := by
  simp [DistributedLock.acquireLock, setNX, h]

theorem acquireLock_occupied (L : DistributedLock) (s : Store) (key : String)
    (h : s (lockKey key) ≠ none) : L.acquireLock s key = (s, false) := by
  rcases he : s (lockKey key) with _ | v
  · exact absurd he h
  · simp [DistributedLock.acquireLock, setNX, he]

theorem acquireLock_false_store (L : DistributedLock) (s : Store) (key : String)
    (h : (L.acquireLock s key).2 = false) : (L.acquireLock s key).1 = s := by
  rcases he : s (lockKey key) with _ | v
  · rw [acquireLock_free L s key he] at h
    simp at h
  · rw [acquireLock_occupied L s key (by simp [he])]

theorem releaseLock_owner (L : DistributedLock) (s : Store) (key : String)
    (e : Option Int) (h : s (lockKey key) = some (L.clientId, e)) :
    L.releaseLock s key = (delKey s (lockKey key), true) := by
  simp [DistributedLock.releaseLock, releaseLockScript, h]

theorem releaseLock_nonowner (L : DistributedLock) (s : Store) (key : String)
    (h : ∀ e, s (lockKey key) ≠ some (L.clientId, e)) :
    L.releaseLock s key = (s, false) := by
  rcases he : s (lockKey key) with _ | ⟨v, ev⟩
  · simp [DistributedLock.releaseLock, releaseLockScript, he]
  · have hv : v ≠ L.clientId := by
      intro hv
      subst hv
      exact h ev he
    simp [DistributedLock.releaseLock, releaseLockScript, he, hv]

/-- C1: `releaseLock` performs a single atomic compare-and-delete on the
lock key: it returns true iff the stored value there equals this instance's
client id, in which case exactly that key is deleted; otherwise (key absent
or held by a different identity) the store is unchanged and it returns
false.  Consequently a second release by the owner after a successful one
returns false. -/
theorem releaseLock_compare_and_delete (L : DistributedLock) (s : Store) (key : String) :
    ((L.releaseLock s key).2 = true ↔ ∃ e, s (lockKey key) = some (L.clientId, e)) ∧
    ((L.releaseLock s key).2 = true →
      (L.releaseLock s key).1 (lockKey key) = none ∧
      ∀ k, k ≠ lockKey key → (L.releaseLock s key).1 k = s k) ∧
    ((L.releaseLock s key).2 = false → (L.releaseLock s key).1 = s) ∧
    ((L.releaseLock s key).2 = true →
      (L.releaseLock (L.releaseLock s key).1 key).2 = false) := by
  by_cases hc : ∃ e, s (lockKey key) = some (L.clientId, e)
  · obtain ⟨e, he⟩ := hc
    rw [releaseLock_owner L s key e he]
    have hsecond : L.releaseLock (delKey s (lockKey key)) key =
        (delKey s (lockKey key), false) :=
      releaseLock_nonowner _ _ _ (by simp [delKey])
    refine ⟨by simpa using ⟨e, he⟩, ?_, by simp, ?_⟩
    · intro _
      exact ⟨by simp [delKey], fun k hk => by simp [delKey, hk]⟩
    · intro _
      simp [hsecond]
  · have hall : ∀ e, s (lockKey key) ≠ some (L.clientId, e) := by
      intro e he
      exact hc ⟨e, he⟩
    rw [releaseLock_nonowner L s key hall]
    refine ⟨?_, by simp, by simp, by simp⟩
    simpa using hc

theorem releaseLock_compare_and_delete_witness :
    (L0.releaseLock sHeldByL0 "r").2 = true ∧
    (L0.releaseLock (L0.releaseLock sHeldByL0 "r").1 "r").2 = false := by
  have h := releaseLock_compare_and_delete L0 sHeldByL0 "r"
  have h1 : (L0.releaseLock sHeldByL0 "r").2 = true := h.1.mpr ⟨some 10, by decide⟩
  exact ⟨h1, h.2.2.2 h1⟩

/-- C3: `acquireLock` returns true iff the conditional set newly wrote the
lock key (the key was absent), in which case exactly that key now carries
this instance's id with the configured TTL; whenever the key already exists
— including when it carries this same instance's id (non-reentrant) — it
returns false and the store is unchanged. -/
theorem acquireLock_conditional_set (L : DistributedLock) (s : Store) (key : String) :
    ((L.acquireLock s key).2 = true ↔ s (lockKey key) = none) ∧
    (s (lockKey key) = none →
      (L.acquireLock s key).1 (lockKey key) = some (L.clientId, some L.lockTtlSeconds) ∧
      ∀ k, k ≠ lockKey key → (L.acquireLock s key).1 k = s k) ∧
    ((L.acquireLock s key).2 = false → (L.acquireLock s key).1 = s) ∧
    (∀ e, s (lockKey key) = some (L.clientId, e) → (L.acquireLock s key).2 = false) := by
  rcases he : s (lockKey key) with _ | v
  · rw [acquireLock_free L s key he]
    refine ⟨by simp, ?_, by simp, ?_⟩
    · intro _
      exact ⟨setKey_same _ _ _ _, fun k hk => setKey_other _ _ _ _ k hk⟩
    · intro e hcontra
      exact absurd hcontra (by simp)
  · rw [acquireLock_occupied L s key (by simp [he])]
    exact ⟨by simp [he], by simp [he], by simp, by simp⟩

theorem acquireLock_conditional_set_witness :
    (L1.acquireLock emptyStore "r").2 = true ∧
    (L1.acquireLock sHeldByL0 "r").2 = false ∧
    (L1.acquireLock sHeldByL0 "r").1 = sHeldByL0 := by
  have hfree := acquireLock_conditional_set L1 emptyStore "r"
  have hocc := acquireLock_conditional_set L1 sHeldByL0 "r"
  have h2 : (L1.acquireLock sHeldByL0 "r").2 = false := by decide
  exact ⟨hfree.1.mpr rfl, h2, hocc.2.2.1 h2⟩

theorem acquireAll_occupied (Ls : List DistributedLock) (key : String) (s : Store)
    (h : s (lockKey key) ≠ none) :
    acquireAll Ls key s = (s, List.replicate Ls.length false) := by
  induction Ls generalizing s with
  | nil => simp [acquireAll]
  | cons L rest ih =>
    simp only [acquireAll, acquireLock_occupied L s key h, ih s h,
      List.length_cons, List.replicate_succ]

theorem count_true_replicate_false (n : Nat) :
    (List.replicate n false).count true = 0 := by
  induction n with
  | zero => rfl
  | succ m ih => simp [List.replicate_succ, List.count_cons, ih]

/-- C2: serialized model of N ≥ 2 concurrent `acquireLock` calls from
managers with pairwise distinct identities against an unlocked key.  Each
call is one atomic conditional set, so any concurrent schedule is some
serial order of the calls; for every such order, exactly one call returns
true and the other N−1 return false. -/
theorem concurrent_acquire_mutual_exclusion (Ls : List DistributedLock)
    (key : String) (s : Store) (hfree : s (lockKey key) = none)
    (hN : 2 ≤ Ls.length)
    (hdistinct : Ls.Pairwise (fun a b => a.clientId ≠ b.clientId)) :
    (acquireAll Ls key s).2.count true = 1 ∧
    (acquireAll Ls key s).2.count false = Ls.length - 1 := by
  rcases Ls with _ | ⟨L, rest⟩
  · simp at hN
  · have ha := acquireLock_free L s key hfree
    have hocc : setKey s (lockKey key) L.clientId (some L.lockTtlSeconds)
        (lockKey key) ≠ none := by
      simp [setKey]
    have hrest := acquireAll_occupied rest key _ hocc
    simp only [acquireAll, ha, hrest]
    constructor
    · simp [List.count_cons, count_true_replicate_false]
    · simp [List.count_cons, List.count_replicate_self]

theorem concurrent_acquire_mutual_exclusion_witness :
    (acquireAll [L0, L1] "r" emptyStore).2.count true = 1 ∧
    (acquireAll [L0, L1] "r" emptyStore).2.count false = 1 := by
  have hd : List.Pairwise (fun a b : DistributedLock => a.clientId ≠ b.clientId)
      [L0, L1] := by
    refine List.Pairwise.cons ?_ (List.pairwise_singleton _ _)
    intro b hb
    rw [List.mem_singleton] at hb
    subst hb
    decide
  have h := concurrent_acquire_mutual_exclusion [L0, L1] "r" emptyStore rfl
    (by decide) hd
  simpa using h

/-- A sample guarded operation: writes a data key and produces a value. -/
def fnWrite : Store → Store × Except String (Option Nat) :=
  fun s => (setKey s "d" "v" none, Except.ok (some 42))

/-- A guarded operation that runs (observable: it writes the key "ran") and
then resolves to `null`. -/
def fnNull : Store → Store × Except String (Option Nat) :=
  fun s => (setKey s "ran" "1" none, Except.ok none)

/-- A guarded operation that raises the failure "opBoom". -/
def fnBoom : Store → Store × Except String (Option Nat) :=
  fun s => (s, Except.error "opBoom")

/-- C4: `withLock` returns `null` without invoking `fn` when acquisition is
denied; when acquisition succeeds, the release script runs on every exit
path (the final store is the post-`fn` store with the release applied), a
normal completion returns `fn`'s value, and a failure raised by `fn`
propagates to the caller after the release. -/
theorem withLock_guard {α : Type} (L : DistributedLock) (key : String)
    (fn : Store → Store × Except String (Option α)) (releaseFail : Option String)
    (s : Store) :
    ((L.acquireLock s key).2 = false →
      L.withLock key fn releaseFail s = (s, Except.ok none) ∧
      ∀ fn2 : Store → Store × Except String (Option α),
        L.withLock key fn2 releaseFail s = L.withLock key fn releaseFail s) ∧
    ((L.acquireLock s key).2 = true →
      (L.withLock key fn none s).1 =
        (L.releaseLock (fn (L.acquireLock s key).1).1 key).1 ∧
      (∀ v, (fn (L.acquireLock s key).1).2 = Except.ok v →
        (L.withLock key fn none s).2 = Except.ok v) ∧
      (∀ e, (fn (L.acquireLock s key).1).2 = Except.error e →
        (L.withLock key fn none s).2 = Except.error e)) := by
  constructor
  · intro hacq
    have hs := acquireLock_false_store L s key hacq
    constructor
    · simp [DistributedLock.withLock, hacq, hs]
    · intro fn2
      simp [DistributedLock.withLock, hacq]
  · intro hacq
    refine ⟨?_, ?_, ?_⟩
    · simp [DistributedLock.withLock, hacq, DistributedLock.releaseLockF]
    · intro v hv
      simp [DistributedLock.withLock, hacq, DistributedLock.releaseLockF, hv]
    · intro e hev
      simp [DistributedLock.withLock, hacq, DistributedLock.releaseLockF, hev]

theorem withLock_guard_witness :
    L0.withLock "r" fnWrite none sHeldByOther = (sHeldByOther, Except.ok none) ∧
    (L0.withLock "r" fnWrite none emptyStore).2 = Except.ok (some 42) := by
  have hden := (withLock_guard L0 "r" fnWrite none sHeldByOther).1 (by decide)
  have hacq := (withLock_guard L0 "r" fnWrite none emptyStore).2 (by decide)
  exact ⟨hden.1, hacq.2.1 (some 42) rfl⟩

/-- C9: when the guarded operation itself resolves to `null`, `withLock`
returns `null` even though the lock was acquired, the operation ran, and the
lock was released — the same observable as a denied acquisition, so `null`
is not a reliable denial signal. -/
theorem withLock_null_indistinguishable {α : Type} (L : DistributedLock)
    (key : String) (fn : Store → Store × Except String (Option α))
    (s s2 : Store) (hfree : s (lockKey key) = none)
    (hnull : (fn (L.acquireLock s key).1).2 = Except.ok none)
    (hpres : (fn (L.acquireLock s key).1).1 (lockKey key) =
      some (L.clientId, some L.lockTtlSeconds))
    (hheld : s2 (lockKey key) ≠ none) :
    (L.withLock key fn none s).2 = Except.ok none ∧
    (L.withLock key fn none s).1 (lockKey key) = none ∧
    L.withLock key fn none s2 = (s2, Except.ok none) := by
  have hacq : (L.acquireLock s key).2 = true := by
    rw [acquireLock_free L s key hfree]
  have hrel := releaseLock_owner L (fn (L.acquireLock s key).1).1 key
    (some L.lockTtlSeconds) hpres
  have hacq2 : (L.acquireLock s2 key).2 = false := by
    rw [acquireLock_occupied L s2 key hheld]
  refine ⟨?_, ?_, ?_⟩
  · simp [DistributedLock.withLock, hacq, DistributedLock.releaseLockF, hnull]
  · simp [DistributedLock.withLock, hacq, DistributedLock.releaseLockF, hrel, delKey]
  · have hs2 := acquireLock_false_store L s2 key hacq2
    simp [DistributedLock.withLock, hacq2, hs2]

theorem withLock_null_indistinguishable_witness :
    (L0.withLock "r" fnNull none emptyStore).2 = Except.ok none ∧
    (L0.withLock "r" fnNull none emptyStore).1 (lockKey "r") = none ∧
    L0.withLock "r" fnNull none sHeldByOther = (sHeldByOther, Except.ok none) := by
  exact withLock_null_indistinguishable L0 "r" fnNull emptyStore sHeldByOther
    rfl rfl (by decide) (by decide)

/-- C6 fails on the code: when the guarded operation raises "opBoom" (or the
data write raises "writeBoom") and the release call in the `finally` block
itself raises "releaseBoom", JavaScript's `try`/`finally` semantics make the
finally block's failure replace the in-flight one, so the caller observes
the release failure, not the original failure. -/
theorem release_failure_replaces_original :
    (L0.withLock "r" fnBoom (some "releaseBoom") emptyStore).2 =
      Except.error "releaseBoom" ∧
    (L0.withLock "r" fnBoom (some "releaseBoom") emptyStore).2 ≠
      Except.error "opBoom" ∧
    (L0.safeSet "k" "v" none (some "writeBoom") (some "releaseBoom")
      emptyStore).2 = Except.error "releaseBoom" ∧
    (L0.safeSet "k" "v" none (some "writeBoom") (some "releaseBoom")
      emptyStore).2 ≠ Except.error "writeBoom" := by
  refine ⟨rfl, ?_, rfl, ?_⟩
  · intro h
    have h2 : "releaseBoom" = "opBoom" := by
      have h3 : (Except.error "releaseBoom" : Except String (Option Nat)) =
          Except.error "opBoom" := by
        rw [← h]
        rfl
      exact Except.error.inj h3
    exact absurd h2 (by decide)
  · intro h
    have h2 : "releaseBoom" = "writeBoom" := by
      have h3 : (Except.error "releaseBoom" : Except String Bool) =
          Except.error "writeBoom" := by
        rw [← h]
        rfl
      exact Except.error.inj h3
    exact absurd h2 (by decide)

theorem safeSet_occupied (L : DistributedLock) (key value : String)
    (ttl : Option Int) (writeFail releaseFail : Option String) (s : Store)
    (hocc : s (lockKey key) ≠ none) :
    L.safeSet key value ttl writeFail releaseFail s = (s, Except.ok false) := by
  rcases he : s (lockKey key) with _ | v
  · exact absurd he hocc
  · simp [DistributedLock.safeSet, setNX, he]

theorem safeSet_free_step (L : DistributedLock) (key value : String)
    (ttl : Option Int) (writeFail releaseFail : Option String) (s : Store)
    (hfree : s (lockKey key) = none) :
    L.safeSet key value ttl writeFail releaseFail s =
      ((L.safeSetGuarded key value ttl writeFail releaseFail
          (setKey s (lockKey key) L.clientId (some L.lockTtlSeconds))).1,
        match (L.safeSetGuarded key value ttl writeFail releaseFail
            (setKey s (lockKey key) L.clientId (some L.lockTtlSeconds))).2 with
        | Except.error e => Except.error e
        | Except.ok _ => Except.ok true) := by
  simp [DistributedLock.safeSet, setNX, hfree]

theorem safeSetGuarded_writeFail (L : DistributedLock) (key value : String)
    (ttl : Option Int) (e : String) (s1 : Store) (e0 : Option Int)
    (hown : s1 (lockKey key) = some (L.clientId, e0)) :
    L.safeSetGuarded key value ttl (some e) none s1 =
      (delKey s1 (lockKey key), Except.error e) := by
  have hr := releaseLock_owner L s1 key e0 hown
  simp [DistributedLock.safeSetGuarded, DistributedLock.releaseLockF, hr]

theorem safeSetGuarded_writeOk (L : DistributedLock) (key value : String)
    (ttl : Option Int) (s1 : Store) (e0 : Option Int)
    (hown : s1 (lockKey key) = some (L.clientId, e0)) :
    L.safeSetGuarded key value ttl none none s1 =
      (delKey (setKey s1 key value ttl) (lockKey key), Except.ok ()) := by
  have hown2 : setKey s1 key value ttl (lockKey key) = some (L.clientId, e0) := by
    rw [setKey_other s1 key value ttl _ (lockKey_ne key)]
    exact hown
  have hr := releaseLock_owner L (setKey s1 key value ttl) key e0 hown2
  rcases ttl with _ | t <;>
    simp [DistributedLock.safeSetGuarded, DistributedLock.releaseLockF, hr]

theorem safeSetGuarded_snd_releaseFail (L : DistributedLock) (key value : String)
    (ttl : Option Int) (writeFail : Option String) (e2 : String) (s1 : Store) :
    (L.safeSetGuarded key value ttl writeFail (some e2) s1).2 =
      Except.error e2 := by
  rcases writeFail with _ | e <;> rcases ttl with _ | t <;>
    simp [DistributedLock.safeSetGuarded, DistributedLock.releaseLockF]

theorem safeSetGuarded_snd_none (L : DistributedLock) (key value : String)
    (ttl : Option Int) (writeFail : Option String) (s1 : Store) :
    (L.safeSetGuarded key value ttl writeFail none s1).2 =
      (match writeFail with
        | some e => Except.error e
        | none => Except.ok ()) := by
  rcases writeFail with _ | e <;> rcases ttl with _ | t <;>
    simp [DistributedLock.safeSetGuarded, DistributedLock.releaseLockF]

/-- C5: `safeSet` returns false at once when the lock is denied, with the
store (in particular the data key) untouched; when the lock is acquired it
returns true iff the data write completed, the lock key is released before
returning or propagating regardless of the write's outcome, and a completed
write leaves the value (with its TTL) under the data key. -/
theorem safeSet_lock_guarded_write (L : DistributedLock) (key value : String)
    (ttl : Option Int) (writeFail releaseFail : Option String) (s : Store) :
    (s (lockKey key) ≠ none →
      L.safeSet key value ttl writeFail releaseFail s = (s, Except.ok false)) ∧
    (s (lockKey key) = none →
      ((L.safeSet key value ttl writeFail none s).2 = Except.ok true ↔
        writeFail = none) ∧
      (L.safeSet key value ttl writeFail none s).1 (lockKey key) = none ∧
      (writeFail = none →
        (L.safeSet key value ttl writeFail none s).1 key = some (value, ttl))) := by
  constructor
  · exact safeSet_occupied L key value ttl writeFail releaseFail s
  · intro hfree
    have hown : setKey s (lockKey key) L.clientId (some L.lockTtlSeconds)
        (lockKey key) = some (L.clientId, some L.lockTtlSeconds) :=
      setKey_same _ _ _ _
    have hstep := safeSet_free_step L key value ttl writeFail none s hfree
    rcases writeFail with _ | e
    · rw [hstep, safeSetGuarded_writeOk L key value ttl _ _ hown]
      refine ⟨by simp, by simp [delKey], ?_⟩
      intro _
      simp only [delKey, if_neg (Ne.symm (lockKey_ne key))]
      exact setKey_same _ _ _ _
    · rw [hstep, safeSetGuarded_writeFail L key value ttl e _ _ hown]
      refine ⟨by simp, by simp [delKey], ?_⟩
      intro h
      exact absurd h (by simp)

theorem safeSet_lock_guarded_write_witness :
    L0.safeSet "r" "v" none none none sHeldByOther =
      (sHeldByOther, Except.ok false) ∧
    (L0.safeSet "k" "v" (some 60) none none emptyStore).2 = Except.ok true ∧
    (L0.safeSet "k" "v" (some 60) none none emptyStore).1 "k" =
      some ("v", some 60) ∧
    (L0.safeSet "k" "v" (some 60) none none emptyStore).1 (lockKey "k") = none := by
  have hden :=
    (safeSet_lock_guarded_write L0 "r" "v" none none none sHeldByOther).1
      (by decide)
  have hfree :=
    (safeSet_lock_guarded_write L0 "k" "v" (some 60) none none emptyStore).2 rfl
  exact ⟨hden, hfree.1.mpr rfl, hfree.2.2 rfl, hfree.2.1⟩

/-- C10: `safeSet` resolves to the boolean false exactly when the lock was
denied; a data-write failure after a successful acquisition never produces a
false return — it propagates as a failure after the release — so false
uniquely signals lock contention. -/
theorem safeSet_false_iff_contention (L : DistributedLock) (key value : String)
    (ttl : Option Int) (writeFail releaseFail : Option String) (s : Store) :
    ((L.safeSet key value ttl writeFail releaseFail s).2 = Except.ok false ↔
      s (lockKey key) ≠ none) ∧
    (∀ e, s (lockKey key) = none → writeFail = some e →
      (L.safeSet key value ttl writeFail none s).2 = Except.error e) := by
  have hsnd : ∀ wf rf, s (lockKey key) = none →
      (L.safeSet key value ttl wf rf s).2 =
        (match rf with
          | some e2 => Except.error e2
          | none =>
            match wf with
            | some e => Except.error e
            | none => Except.ok true) := by
    intro wf rf hfree
    rw [safeSet_free_step L key value ttl wf rf s hfree]
    rcases rf with _ | e2
    · rw [safeSetGuarded_snd_none L key value ttl wf _]
      rcases wf with _ | e <;> simp
    · rw [safeSetGuarded_snd_releaseFail L key value ttl wf e2 _]
  rcases he : s (lockKey key) with _ | v
  · constructor
    · constructor
      · intro hfalse
        rw [hsnd writeFail releaseFail he] at hfalse
        rcases releaseFail with _ | e2
        · rcases writeFail with _ | e <;> simp at hfalse
        · simp at hfalse
      · intro hocc
        exact absurd rfl hocc
    · intro e hfree hwf
      subst hwf
      rw [hsnd (some e) none he]
  · have hocc : s (lockKey key) ≠ none := by
      simp [he]
    constructor
    · rw [safeSet_occupied L key value ttl writeFail releaseFail s hocc]
      simp
    · intro e hfree
      exact absurd hfree (by simp [he])

theorem safeSet_false_iff_contention_witness :
    (L0.safeSet "r" "v" none none none sHeldByOther).2 = Except.ok false ∧
    (L0.safeSet "k" "v" none (some "writeBoom") none emptyStore).2 =
      Except.error "writeBoom" := by
  have hocc := safeSet_false_iff_contention L0 "r" "v" none none none sHeldByOther
  have hfree :=
    safeSet_false_iff_contention L0 "k" "v" none (some "writeBoom") none emptyStore
  exact ⟨hocc.1.mpr (by decide), hfree.2 "writeBoom" rfl rfl⟩

/-- C8: the lock key is the literal "lock:" prefix on the resource name and
never equals that name's data key; `acquireLock` writes exactly the lock key
with this instance's id and an expiry equal to the configured TTL;
`safeSet`'s internal acquisition is the very same conditional set as
`acquireLock`; and the release script never creates an entry (any key it
changes becomes absent), so no code path creates a lock marker without an
expiry. -/
theorem lock_key_namespace_and_expiry (L : DistributedLock) (key value : String)
    (ttl : Option Int) (writeFail releaseFail : Option String) (s : Store) :
    lockKey key ≠ key ∧
    (s (lockKey key) = none →
      (L.acquireLock s key).1 (lockKey key) =
        some (L.clientId, some L.lockTtlSeconds) ∧
      ∀ k, k ≠ lockKey key → (L.acquireLock s key).1 k = s k) ∧
    (L.safeSet key value ttl writeFail releaseFail s =
      (let a := L.acquireLock s key
       if a.2 = false then (a.1, Except.ok false)
       else
         let g := L.safeSetGuarded key value ttl writeFail releaseFail a.1
         (g.1, match g.2 with
               | Except.error e => Except.error e
               | Except.ok _ => Except.ok true))) ∧
    (∀ k, (L.releaseLock s key).1 k ≠ s k → (L.releaseLock s key).1 k = none) := by
  refine ⟨lockKey_ne key, ?_, rfl, ?_⟩
  · intro hfree
    rw [acquireLock_free L s key hfree]
    exact ⟨setKey_same _ _ _ _, fun k hk => setKey_other _ _ _ _ k hk⟩
  · intro k hk
    by_cases hc : ∃ e, s (lockKey key) = some (L.clientId, e)
    · obtain ⟨e, he⟩ := hc
      rw [releaseLock_owner L s key e he] at hk ⊢
      by_cases hkk : k = lockKey key
      · subst hkk
        simp [delKey]
      · exact absurd (by simp [delKey, hkk]) hk
    · have hall : ∀ e, s (lockKey key) ≠ some (L.clientId, e) := by
        intro e he
        exact hc ⟨e, he⟩
      rw [releaseLock_nonowner L s key hall] at hk
      exact absurd rfl hk

theorem lock_key_namespace_and_expiry_witness :
    lockKey "k" ≠ "k" ∧
    (L0.acquireLock emptyStore "k").1 (lockKey "k") = some ("c0", some 10) := by
  have h := lock_key_namespace_and_expiry L0 "k" "v" none none none emptyStore
  exact ⟨h.1, (h.2.1 rfl).1⟩

/-- C7 fails on the code: the `DistributedLock` constructor performs no
validation of `lockTtlSeconds`; it stores whatever TTL it is given —
including zero and negative values — and produces a usable instance, rather
than failing fast with a descriptive error. -/
theorem constructor_accepts_nonpositive_ttl :
    (DistributedLock.make "c0" 0).lockTtlSeconds = 0 ∧
    (DistributedLock.make "c0" (-5)).lockTtlSeconds = -5 ∧
    ∀ t : Int, (DistributedLock.make "c0" t).lockTtlSeconds = t :=
  ⟨rfl, rfl, fun _ => rfl⟩

end GlideLock
